import Mathlib

/-!
Verification of the netwatchd time-bucketed aggregation engine.

The Go program keeps a mutex-guarded `MonitoringData` record holding the
current (still open) packet and bandwidth counters, the closed bucket
sequences, and the next bucket boundary.  Three workers mutate it under
the lock: the capture worker increments `currentPackets` per line read,
the bandwidth worker adds sampled byte rates to `currentBandwidth`, and
the bucket manager closes the current bucket when a tick's timestamp is
strictly after `nextBucketTime`.  `generateReport` performs one final
unconditional close-and-append and prints per-bucket and total lines.

Since the lock serializes every mutation, a run is a sequence of atomic
operations; we model it as a fold of operations over the record.  Time
is modelled as integer seconds (one bucket width = `1 * time.Minute` =
60).  Go `float64` bandwidth values are modelled as rationals.
-/

namespace Netwatchd

/-- Width of one aggregation bucket in seconds (`1 * time.Minute` in the Go source). -/
def bucketWidth : Int := 60

/-- State of the aggregation engine (Go struct `MonitoringData`, src/unnamed/part_000
lines 17-25).  The mutex is not modelled: every mutation in the source happens
under the single lock, so a run is a sequence of atomic operations. -/
structure MonitoringData where
  packetBuckets : List Nat
  bandwidthBuckets : List ℚ
  currentPackets : Nat
  currentBandwidth : ℚ
  startTime : Int
  nextBucketTime : Int
deriving Repr, DecidableEq

/-- Initial state built in `main` (lines 41-44): empty buckets, zero counters,
`startTime` and `nextBucketTime` taken from two `time.Now()` calls, the latter
advanced by one bucket width. -/
def initData (t1 t2 : Int) : MonitoringData :=
  { packetBuckets := []
  , bandwidthBuckets := []
  , currentPackets := 0
  , currentBandwidth := 0
  , startTime := t1
  , nextBucketTime := t2 + bucketWidth }

/-- One packet recorded by the capture worker (`data.currentPackets++` under the
lock, lines 152-154). -/
def recordPacket (d : MonitoringData) : MonitoringData :=
  { d with currentPackets := d.currentPackets + 1 }

/-- One bandwidth sample accumulated by the bandwidth worker
(`data.currentBandwidth += totalBytes` under the lock, lines 214-216).
The addition is unconditional in the source: no sign check, no clamping. -/
def recordBandwidth (d : MonitoringData) (v : ℚ) : MonitoringData :=
  { d with currentBandwidth := d.currentBandwidth + v }

/-- The body of one `manageBuckets` tick (lines 101-111): if `now` is strictly
after `nextBucketTime` (Go `now.After(data.nextBucketTime)`), append the current
counters to the closed bucket lists, reset them, and advance `nextBucketTime`
by one bucket width.  A single `if`, not a loop: at most one bucket closes per
tick. -/
def rotateTick (d : MonitoringData) (now : Int) : MonitoringData :=
  if d.nextBucketTime < now then
    { d with packetBuckets := d.packetBuckets ++ [d.currentPackets]
           , bandwidthBuckets := d.bandwidthBuckets ++ [d.currentBandwidth]
           , currentPackets := 0
           , currentBandwidth := 0
           , nextBucketTime := d.nextBucketTime + bucketWidth }
  else d

/-- The unconditional close-and-append performed at the start of
`generateReport` (lines 225-226): append both current counters, once, with no
reset and no condition. -/
def finalizeBuckets (d : MonitoringData) : MonitoringData :=
  { d with packetBuckets := d.packetBuckets ++ [d.currentPackets]
         , bandwidthBuckets := d.bandwidthBuckets ++ [d.currentBandwidth] }

/-- One atomic operation on the shared state: a packet record, a bandwidth
record, or one rotation tick with its timestamp. -/
inductive Op where
  | record : Op
  | recordBW : ℚ → Op
  | rotate : Int → Op
deriving Repr, DecidableEq

/-- Apply one operation to the state. -/
def applyOp (d : MonitoringData) : Op → MonitoringData
  | Op.record => recordPacket d
  | Op.recordBW v => recordBandwidth d v
  | Op.rotate now => rotateTick d now

/-- Run a sequence of interleaved operations. -/
def runOps (d : MonitoringData) : List Op → MonitoringData
  | [] => d
  | op :: rest => runOps (applyOp d op) rest

/-- Number of `RecordPacket` events in an operation sequence. -/
def numRecords : List Op → Nat
  | [] => 0
  | Op.record :: rest => numRecords rest + 1
  | _ :: rest => numRecords rest

lemma runOps_packet_sum (es : List Op) : ∀ d : MonitoringData,
    (runOps d es).packetBuckets.sum + (runOps d es).currentPackets
      = d.packetBuckets.sum + d.currentPackets + numRecords es := by
  induction es with
  | nil => intro d; simp [runOps, numRecords]
  | cons op rest ih =>
    intro d
    cases op with
    | record =>
      rw [runOps, ih]
      simp [applyOp, recordPacket, numRecords]
      omega
    | recordBW v =>
      rw [runOps, ih]
      simp [applyOp, recordBandwidth, numRecords]
    | rotate now =>
      rw [runOps, ih]
      simp only [applyOp, numRecords]
      unfold rotateTick
      split <;> simp [List.sum_append]

/-- C1: over every interleaving of packet records, bandwidth records and
rotation ticks, the sum of packet counts across all closed buckets after the
final close-and-append in `generateReport` equals exactly the number of
`RecordPacket` events: no packet is lost and none is counted twice. -/
theorem packet_conservation (t1 t2 : Int) (es : List Op) :
    (finalizeBuckets (runOps (initData t1 t2) es)).packetBuckets.sum
      = numRecords es := by
  have h := runOps_packet_sum es (initData t1 t2)
  simp only [finalizeBuckets, List.sum_append, List.sum_cons, List.sum_nil]
  simp only [initData, List.sum_nil] at h ⊢
  omega

/-- C2 counterexample: with `nextBucketTime = 60` (last boundary 0, width 60)
and `now = 120` — exactly K = 2 whole bucket widths past the last boundary —
the claim predicts 2 newly closed buckets and `nextBucketTime = now + width`;
the single-`if` tick body closes only 1 bucket and sets `nextBucketTime = 120`. -/
theorem rotate_claim_counterexample :
    ¬ ((rotateTick (initData 0 0) 120).packetBuckets.length = 2 ∧
       (rotateTick (initData 0 0) 120).nextBucketTime = 120 + bucketWidth) := by
  decide

/-- C2 (amended): a single invocation of the `manageBuckets` tick body closes
exactly one bucket when `now` is strictly after `nextBucketTime` and none
otherwise (in particular none when `now` equals the boundary), and advances
`nextBucketTime` by exactly one bucket width per close — never by K widths
and never relative to `now`. -/
theorem rotate_single_step (d : MonitoringData) (now : Int) :
    (rotateTick d now).packetBuckets
      = d.packetBuckets ++ (if d.nextBucketTime < now then [d.currentPackets] else []) ∧
    (rotateTick d now).bandwidthBuckets
      = d.bandwidthBuckets ++ (if d.nextBucketTime < now then [d.currentBandwidth] else []) ∧
    (rotateTick d now).nextBucketTime
      = d.nextBucketTime + (if d.nextBucketTime < now then bucketWidth else 0) := by
  unfold rotateTick
  split <;> simp

/-- The per-line body of the capture worker's scan loop (lines 145-156),
folded over the lines actually read.  Element k of `flags` records whether the
cancellation signal had fired when line k was read: the Go `select` takes the
ready `ctx.Done()` case and returns, otherwise the `default` branch increments
`currentPackets` under the lock. -/
def captureLoop (d : MonitoringData) : List Bool → MonitoringData
  | [] => d
  | cancelled :: rest =>
    if cancelled then d else captureLoop (recordPacket d) rest

/-- C3 counterexample: a line already read from the stream when cancellation
has fired is dropped, not recorded — the worker returns from the done-case
before incrementing, so `currentPackets` stays 0 where the claim predicts 1. -/
theorem capture_claim_counterexample :
    ¬ ((captureLoop (initData 0 0) [true]).currentPackets = 1) := by
  decide

/-- C3 (amended): a line whose read completes after cancellation has fired is
dropped, never recorded: the worker records exactly the lines read strictly
before cancellation was observed and stops at the first line whose
post-read check sees cancellation. -/
theorem capture_records_before_cancellation (d : MonitoringData) (flags : List Bool) :
    (captureLoop d flags).currentPackets
      = d.currentPackets + (flags.takeWhile (fun c => !c)).length := by
  induction flags generalizing d with
  | nil => simp [captureLoop]
  | cons c rest ih =>
    cases c
    · simp only [captureLoop, Bool.false_eq_true, if_false, ih, recordPacket,
        List.takeWhile_cons]
      simp
      omega
    · simp [captureLoop, List.takeWhile_cons]

/-- C4 counterexample: the bandwidth accumulation performs no sign check, so a
negative sample drives `currentBandwidth` negative, where the claim says it can
never become negative. -/
theorem recordBandwidth_negative_counterexample :
    (recordBandwidth (initData 0 0) (-5)).currentBandwidth < 0 := by
  norm_num [recordBandwidth, initData]

/-- C4 (amended): `monitorBandwidth` adds each successful sample to
`currentBandwidth` unconditionally — no rejection and no clamping of negative
input — so a negative sample strictly decreases the accumulator and can make
it negative. -/
theorem recordBandwidth_no_clamp (d : MonitoringData) (v : ℚ) (hv : v < 0) :
    (recordBandwidth d v).currentBandwidth = d.currentBandwidth + v ∧
    (recordBandwidth d v).currentBandwidth < d.currentBandwidth := by
  refine ⟨rfl, ?_⟩
  simp only [recordBandwidth]
  linarith

theorem recordBandwidth_no_clamp_witness :
    (-5 : ℚ) < 0 ∧
      ((recordBandwidth (initData 0 0) (-5)).currentBandwidth
          = (initData 0 0).currentBandwidth + (-5) ∧
       (recordBandwidth (initData 0 0) (-5)).currentBandwidth
          < (initData 0 0).currentBandwidth) :=
  ⟨by norm_num, recordBandwidth_no_clamp (initData 0 0) (-5) (by norm_num)⟩

/-- Status code `PDH_INVALID_DATA` from src/pdh/pdh.go line 22. -/
def PDH_INVALID_DATA : Nat := 0xC0000BBA

/-- Result of `Counter.GetValue` in src/pdh/pdh.go lines 159-171, as a function
of the status `ret` returned by `PdhGetFormattedCounterValue` and the formatted
`DoubleValue`: only a status that is neither 0 nor `PDH_INVALID_DATA` is
surfaced as an error; `PDH_INVALID_DATA` returns the value with a nil error. -/
def pdhGetValue (ret : Nat) (val : ℚ) : Except Nat ℚ :=
  if ret ≠ 0 ∧ ret ≠ PDH_INVALID_DATA then Except.error ret else Except.ok val

/-- One polling tick of `monitorBandwidth` (lines 204-217) after a successful
collection, as a function of the two counter reads: the sample `sent + recv`
is accumulated exactly when both reads carry a nil error. -/
def bandwidthTick (d : MonitoringData) (sent recv : Except Nat ℚ) : MonitoringData :=
  match sent, recv with
  | Except.ok s, Except.ok r => recordBandwidth d (s + r)
  | _, _ => d

/-- C5 counterexample: a formatted read that reports `PDH_INVALID_DATA` (the
"no data yet" / invalid-data condition) is returned with a nil error carrying
the formatted value, so the tick contributes that value (here 7 ≠ 0) to
`currentBandwidth` — the claim predicts a failed, skippable read contributing
nothing. -/
theorem pdh_invalid_claim_counterexample :
    pdhGetValue PDH_INVALID_DATA 7 = Except.ok 7 ∧
    (bandwidthTick (initData 0 0) (pdhGetValue PDH_INVALID_DATA 7)
        (Except.ok 0)).currentBandwidth ≠ 0 := by
  constructor
  · simp [pdhGetValue]
  · norm_num [pdhGetValue, PDH_INVALID_DATA, bandwidthTick, recordBandwidth, initData]

/-- C5 (amended): `Counter.GetValue` surfaces only statuses other than 0 and
`PDH_INVALID_DATA` as failed reads; an invalid-data read returns its value
with a nil error and therefore does contribute to that tick.  The worker side
of the claim holds: a tick accumulates `sent + recv` exactly when both reads
return a nil error, and contributes nothing when either read fails. -/
theorem pdh_error_surfacing (d : MonitoringData) (v s : ℚ) (e : Nat) (r : Except Nat ℚ)
    (h1 : e ≠ 0) (h2 : e ≠ PDH_INVALID_DATA) :
    pdhGetValue e v = Except.error e ∧
    pdhGetValue PDH_INVALID_DATA v = Except.ok v ∧
    pdhGetValue 0 v = Except.ok v ∧
    bandwidthTick d (Except.error e) r = d ∧
    bandwidthTick d r (Except.error e) = d ∧
    (bandwidthTick d (Except.ok v) (Except.ok s)).currentBandwidth
      = d.currentBandwidth + (v + s) := by
  refine ⟨?_, ?_, ?_, ?_, ?_, rfl⟩
  · simp [pdhGetValue, h1, h2]
  · simp [pdhGetValue]
  · simp [pdhGetValue]
  · cases r <;> rfl
  · cases r <;> rfl

theorem pdh_error_surfacing_witness :
    (1 : Nat) ≠ 0 ∧ (1 : Nat) ≠ PDH_INVALID_DATA ∧
      (pdhGetValue 1 7 = Except.error 1 ∧
       pdhGetValue PDH_INVALID_DATA 7 = Except.ok 7 ∧
       pdhGetValue 0 7 = Except.ok 7 ∧
       bandwidthTick (initData 0 0) (Except.error 1) (Except.ok 0) = initData 0 0 ∧
       bandwidthTick (initData 0 0) (Except.ok 0) (Except.error 1) = initData 0 0 ∧
       (bandwidthTick (initData 0 0) (Except.ok 7) (Except.ok 2)).currentBandwidth
         = (initData 0 0).currentBandwidth + (7 + 2)) :=
  ⟨by norm_num, by norm_num [PDH_INVALID_DATA],
   pdh_error_surfacing (initData 0 0) 7 2 1 (Except.ok 0) (by norm_num)
     (by norm_num [PDH_INVALID_DATA])⟩

/-- C6: the unconditional close-and-append at the start of `generateReport`
always appends exactly one final bucket to each sequence — also when the
current counters are zero and the boundary was never crossed — never zero
buckets, never two: the closed sequences afterwards are exactly the already
closed buckets followed by one final bucket. -/
theorem finalize_appends_exactly_one (d : MonitoringData) :
    (finalizeBuckets d).packetBuckets = d.packetBuckets ++ [d.currentPackets] ∧
    (finalizeBuckets d).bandwidthBuckets = d.bandwidthBuckets ++ [d.currentBandwidth] ∧
    (finalizeBuckets d).packetBuckets.length = d.packetBuckets.length + 1 ∧
    (finalizeBuckets d).bandwidthBuckets.length = d.bandwidthBuckets.length + 1 := by
  refine ⟨rfl, rfl, ?_, ?_⟩ <;> simp [finalizeBuckets]

/-- One printed per-bucket line of the report: either `minute i: p packets |
b MB` (1-based index) or `last s seconds: p packets | b MB`. -/
inductive ReportLine where
  | minuteLine : Nat → Nat → ℚ → ReportLine
  | lastSecondsLine : Int → Nat → ℚ → ReportLine
deriving Repr, DecidableEq

/-- Bandwidth looked up for bucket index `i` in the report loop (lines
238-241): `var bandwidth float64; if i < len(bandwidthBuckets) { bandwidth =
bandwidthBuckets[i] }`. -/
def bwAt (bbs : List ℚ) (i : Nat) : ℚ :=
  if i < bbs.length then bbs.getD i 0 else 0

/-- The report loop of `generateReport` (lines 236-257) from index `i`:
returns the printed per-bucket lines together with the accumulated totals of
packets and bandwidth.  Totals are accumulated before the last-bucket check,
exactly as in the source; on the last index, if the remainder
`int(elapsed.Seconds()) - i*60` is strictly below 60 the loop prints a
`last N seconds` line and breaks, otherwise it prints a `minute i+1` line. -/
def reportLoop (pbs : List Nat) (bbs : List ℚ) (elapsedSec : Int) (i : Nat) :
    List ReportLine × Nat × ℚ :=
  if _h : i < pbs.length then
    if i = pbs.length - 1 ∧ elapsedSec - (i : Int) * 60 < 60 then
      ([ReportLine.lastSecondsLine (elapsedSec - (i : Int) * 60) (pbs.getD i 0)
          (bwAt bbs i / (1024 * 1024))],
       pbs.getD i 0, bwAt bbs i)
    else
      (ReportLine.minuteLine (i + 1) (pbs.getD i 0) (bwAt bbs i / (1024 * 1024))
          :: (reportLoop pbs bbs elapsedSec (i + 1)).1,
       pbs.getD i 0 + (reportLoop pbs bbs elapsedSec (i + 1)).2.1,
       bwAt bbs i + (reportLoop pbs bbs elapsedSec (i + 1)).2.2)
  else ([], 0, 0)
termination_by pbs.length - i

/-- The final report (lines 222-269): finalize, run the per-bucket loop, and
emit the average-bytes-per-packet line exactly when the accumulated total
packet count is strictly positive. -/
structure Report where
  bucketLines : List ReportLine
  totalPackets : Nat
  totalBandwidth : ℚ
  avgBytesPerPacket : Option ℚ
deriving Repr, DecidableEq

/-- Model of `generateReport`, parameterized by the elapsed whole seconds
`int(elapsed.Seconds())`. -/
def generateReport (d : MonitoringData) (elapsedSec : Int) : Report :=
  let d2 := finalizeBuckets d
  let r := reportLoop d2.packetBuckets d2.bandwidthBuckets elapsedSec 0
  { bucketLines := r.1
  , totalPackets := r.2.1
  , totalBandwidth := r.2.2
  , avgBytesPerPacket :=
      if 0 < r.2.1 then some (r.2.2 / (r.2.1 : ℚ)) else none }

/-- Label printed for a non-last bucket index `j` (and for a last bucket whose
remainder is not below one bucket width): `minute j+1` with that bucket's
packets and scaled bandwidth. -/
def minuteLineAt (pbs : List Nat) (bbs : List ℚ) (j : Nat) : ReportLine :=
  ReportLine.minuteLine (j + 1) (pbs.getD j 0) (bwAt bbs j / (1024 * 1024))

/-- Label printed for the last bucket: the partial `last N seconds` line with
`N = elapsedSec - (len-1)*60` when that remainder is strictly below 60, and a
full `minute len` line otherwise. -/
def reportLastLabel (pbs : List Nat) (bbs : List ℚ) (elapsedSec : Int) : ReportLine :=
  if elapsedSec - ((pbs.length - 1 : Nat) : Int) * 60 < 60 then
    ReportLine.lastSecondsLine (elapsedSec - ((pbs.length - 1 : Nat) : Int) * 60)
      (pbs.getD (pbs.length - 1) 0) (bwAt bbs (pbs.length - 1) / (1024 * 1024))
  else minuteLineAt pbs bbs (pbs.length - 1)

lemma reportLoop_lines (pbs : List Nat) (bbs : List ℚ) (e : Int) :
    ∀ k i, pbs.length = i + k + 1 →
      (reportLoop pbs bbs e i).1
        = (List.range' i k).map (minuteLineAt pbs bbs)
            ++ [reportLastLabel pbs bbs e] := by
  intro k
  induction k with
  | zero =>
    intro i hi
    rw [reportLoop]
    have hlt : i < pbs.length := by omega
    have hlast : i = pbs.length - 1 := by omega
    simp only [hlt, dif_pos]
    by_cases hrem : e - (i : Int) * 60 < 60
    · simp only [hlast, hrem, and_true, if_pos rfl]
      simp [reportLastLabel, ← hlast, hrem]
    · have : ¬ (i = pbs.length - 1 ∧ e - (i : Int) * 60 < 60) := by
        intro h; exact hrem h.2
      simp only [this, if_false]
      rw [reportLoop]
      have : ¬ (i + 1 < pbs.length) := by omega
      simp only [this, dif_neg, not_false_iff]
      simp [reportLastLabel, minuteLineAt, ← hlast, hrem]
  | succ k ih =>
    intro i hi
    rw [reportLoop]
    have hlt : i < pbs.length := by omega
    have hne : ¬ (i = pbs.length - 1 ∧ e - (i : Int) * 60 < 60) := by
      intro h; omega
    simp only [hlt, dif_pos, hne, if_false]
    rw [ih (i + 1) (by omega)]
    simp [List.range'_succ, minuteLineAt]

lemma sum_getD_drop {α : Type} [AddCommMonoid α] (l : List α) (i : Nat)
    (h : i < l.length) :
    (l.drop i).sum = l.getD i 0 + (l.drop (i + 1)).sum := by
  rw [List.drop_eq_getElem_cons h, List.sum_cons, List.getD_eq_getElem l 0 h]

lemma reportLoop_totals (pbs : List Nat) (bbs : List ℚ) (e : Int)
    (hlen : bbs.length = pbs.length) :
    ∀ k i, pbs.length = i + k + 1 →
      (reportLoop pbs bbs e i).2.1 = (pbs.drop i).sum ∧
      (reportLoop pbs bbs e i).2.2 = (bbs.drop i).sum := by
  intro k
  induction k with
  | zero =>
    intro i hi
    rw [reportLoop]
    have hlt : i < pbs.length := by omega
    have hbw : bwAt bbs i = bbs.getD i 0 := by
      simp [bwAt, hlen, hlt]
    have hp : (pbs.drop i).sum = pbs.getD i 0 + (pbs.drop (i + 1)).sum :=
      sum_getD_drop pbs i hlt
    have hb : (bbs.drop i).sum = bbs.getD i 0 + (bbs.drop (i + 1)).sum :=
      sum_getD_drop bbs i (by omega)
    have hpd : pbs.drop (i + 1) = [] := List.drop_eq_nil_of_le (by omega)
    have hbd : bbs.drop (i + 1) = [] := List.drop_eq_nil_of_le (by omega)
    rw [dif_pos hlt]
    by_cases hcond : i = pbs.length - 1 ∧ e - (i : Int) * 60 < 60
    · rw [if_pos hcond]
      simp [hbw, hp, hb, hpd, hbd]
    · rw [if_neg hcond]
      rw [reportLoop]
      have h2 : ¬ (i + 1 < pbs.length) := by omega
      rw [dif_neg h2]
      simp [hbw, hp, hb, hpd, hbd]
  | succ k ih =>
    intro i hi
    rw [reportLoop]
    have hlt : i < pbs.length := by omega
    have hne : ¬ (i = pbs.length - 1 ∧ e - (i : Int) * 60 < 60) := by
      intro h; omega
    have hbw : bwAt bbs i = bbs.getD i 0 := by
      simp [bwAt, hlen, hlt]
    obtain ⟨ih1, ih2⟩ := ih (i + 1) (by omega)
    rw [dif_pos hlt, if_neg hne]
    constructor
    · simp [ih1, sum_getD_drop pbs i hlt]
    · simp [ih2, hbw, sum_getD_drop bbs i (show i < bbs.length by omega)]

/-- C7: with finalized buckets `[5, 3]`, elapsed 95 seconds and 60-second
width, the loop labels bucket 0 `minute 1: 5 packets` and bucket 1
`last 35 seconds: 3 packets`; in general, every non-last bucket `j` is labeled
`minute j+1`, and the last bucket is labeled with the remainder length
`elapsedSec - (len-1)*60` exactly when that remainder is strictly below 60
(and `minute len` otherwise). -/
theorem report_bucket_labels (pbs : List Nat) (bbs : List ℚ) (e : Int)
    (hn : pbs ≠ []) :
    (reportLoop pbs bbs e 0).1
      = (List.range (pbs.length - 1)).map (minuteLineAt pbs bbs)
          ++ [reportLastLabel pbs bbs e] ∧
    (reportLoop [5, 3] [0, 0] 95 0).1
      = [ReportLine.minuteLine 1 5 0, ReportLine.lastSecondsLine 35 3 0] := by
  constructor
  · have hlen : pbs.length = 0 + (pbs.length - 1) + 1 := by
      cases pbs with
      | nil => exact absurd rfl hn
      | cons a l => simp
    rw [List.range_eq_range']
    exact reportLoop_lines pbs bbs e (pbs.length - 1) 0 hlen
  · have h := reportLoop_lines [5, 3] [0, 0] 95 1 0 (by simp)
    rw [h]
    norm_num [List.range', minuteLineAt, reportLastLabel, bwAt]

theorem report_bucket_labels_witness :
    ([5, 3] : List Nat) ≠ [] ∧
      ((reportLoop [5, 3] [0, 0] 95 0).1
          = (List.range (([5, 3] : List Nat).length - 1)).map (minuteLineAt [5, 3] [0, 0])
              ++ [reportLastLabel [5, 3] [0, 0] 95] ∧
       (reportLoop [5, 3] [0, 0] 95 0).1
          = [ReportLine.minuteLine 1 5 0, ReportLine.lastSecondsLine 35 3 0]) :=
  ⟨by simp, report_bucket_labels [5, 3] [0, 0] 95 (by simp)⟩

/-- C8: the report's totals are the exact sums over the finalized bucket
sequences, and the average-bytes-per-packet line is emitted exactly when the
total packet count is strictly positive, in which case its value is total
bandwidth divided by total packets; with 100 packets and 204800 bytes the
average is 2048, and with zero packets no average is produced. -/
lemma generateReport_totalPackets (d : MonitoringData) (e : Int)
    (hlen : d.bandwidthBuckets.length = d.packetBuckets.length) :
    (generateReport d e).totalPackets = (finalizeBuckets d).packetBuckets.sum := by
  have hfin : (finalizeBuckets d).bandwidthBuckets.length
      = (finalizeBuckets d).packetBuckets.length := by
    simp [finalizeBuckets, hlen]
  have hpos : (finalizeBuckets d).packetBuckets.length
      = 0 + ((finalizeBuckets d).packetBuckets.length - 1) + 1 := by
    simp [finalizeBuckets]
  obtain ⟨h1, _⟩ := reportLoop_totals (finalizeBuckets d).packetBuckets
    (finalizeBuckets d).bandwidthBuckets e hfin
    ((finalizeBuckets d).packetBuckets.length - 1) 0 hpos
  simpa [generateReport] using h1

lemma generateReport_totalBandwidth (d : MonitoringData) (e : Int)
    (hlen : d.bandwidthBuckets.length = d.packetBuckets.length) :
    (generateReport d e).totalBandwidth = (finalizeBuckets d).bandwidthBuckets.sum := by
  have hfin : (finalizeBuckets d).bandwidthBuckets.length
      = (finalizeBuckets d).packetBuckets.length := by
    simp [finalizeBuckets, hlen]
  have hpos : (finalizeBuckets d).packetBuckets.length
      = 0 + ((finalizeBuckets d).packetBuckets.length - 1) + 1 := by
    simp [finalizeBuckets]
  obtain ⟨_, h2⟩ := reportLoop_totals (finalizeBuckets d).packetBuckets
    (finalizeBuckets d).bandwidthBuckets e hfin
    ((finalizeBuckets d).packetBuckets.length - 1) 0 hpos
  simpa [generateReport] using h2

lemma generateReport_avg (d : MonitoringData) (e : Int) :
    (generateReport d e).avgBytesPerPacket
      = if 0 < (generateReport d e).totalPackets then
          some ((generateReport d e).totalBandwidth
            / ((generateReport d e).totalPackets : ℚ))
        else none := by
  simp [generateReport]

theorem avg_bytes_per_packet (d : MonitoringData) (e : Int)
    (hlen : d.bandwidthBuckets.length = d.packetBuckets.length) :
    (generateReport d e).totalPackets = (finalizeBuckets d).packetBuckets.sum ∧
    (generateReport d e).totalBandwidth = (finalizeBuckets d).bandwidthBuckets.sum ∧
    ((generateReport d e).avgBytesPerPacket
      = if 0 < (generateReport d e).totalPackets then
          some ((generateReport d e).totalBandwidth
            / ((generateReport d e).totalPackets : ℚ))
        else none) ∧
    (generateReport ⟨[100], [204800], 0, 0, 0, 60⟩ 70).avgBytesPerPacket
      = some 2048 ∧
    (generateReport ⟨[], [], 0, 0, 0, 60⟩ 5).avgBytesPerPacket = none := by
  refine ⟨generateReport_totalPackets d e hlen, generateReport_totalBandwidth d e hlen,
    generateReport_avg d e, ?_, ?_⟩
  · rw [generateReport_avg,
      generateReport_totalPackets ⟨[100], [204800], 0, 0, 0, 60⟩ 70 (by simp),
      generateReport_totalBandwidth ⟨[100], [204800], 0, 0, 0, 60⟩ 70 (by simp)]
    norm_num [finalizeBuckets]
  · rw [generateReport_avg,
      generateReport_totalPackets ⟨[], [], 0, 0, 0, 60⟩ 5 (by simp)]
    norm_num [finalizeBuckets]

theorem avg_bytes_per_packet_witness :
    (⟨[100], [204800], 0, 0, 0, 60⟩ : MonitoringData).bandwidthBuckets.length
        = (⟨[100], [204800], 0, 0, 0, 60⟩ : MonitoringData).packetBuckets.length ∧
      ((generateReport ⟨[100], [204800], 0, 0, 0, 60⟩ 70).totalPackets
          = (finalizeBuckets ⟨[100], [204800], 0, 0, 0, 60⟩).packetBuckets.sum ∧
       (generateReport ⟨[100], [204800], 0, 0, 0, 60⟩ 70).totalBandwidth
          = (finalizeBuckets ⟨[100], [204800], 0, 0, 0, 60⟩).bandwidthBuckets.sum ∧
       ((generateReport ⟨[100], [204800], 0, 0, 0, 60⟩ 70).avgBytesPerPacket
          = if 0 < (generateReport ⟨[100], [204800], 0, 0, 0, 60⟩ 70).totalPackets then
              some ((generateReport ⟨[100], [204800], 0, 0, 0, 60⟩ 70).totalBandwidth
                / ((generateReport ⟨[100], [204800], 0, 0, 0, 60⟩ 70).totalPackets : ℚ))
            else none) ∧
       (generateReport ⟨[100], [204800], 0, 0, 0, 60⟩ 70).avgBytesPerPacket
          = some 2048 ∧
       (generateReport ⟨[], [], 0, 0, 0, 60⟩ 5).avgBytesPerPacket = none) :=
  ⟨by simp, avg_bytes_per_packet ⟨[100], [204800], 0, 0, 0, 60⟩ 70 (by simp)⟩

lemma runOps_length_eq (es : List Op) : ∀ d : MonitoringData,
    d.packetBuckets.length = d.bandwidthBuckets.length →
    (runOps d es).packetBuckets.length = (runOps d es).bandwidthBuckets.length := by
  induction es with
  | nil => intro d h; simpa [runOps] using h
  | cons op rest ih =>
    intro d h
    rw [runOps]
    apply ih
    cases op with
    | record => simpa [applyOp, recordPacket] using h
    | recordBW v => simpa [applyOp, recordBandwidth] using h
    | rotate now =>
      simp only [applyOp]
      unfold rotateTick
      split <;> simp [h]

/-- C9: the two closed-bucket sequences have equal length after creation, after
every run of interleaved operations, and after the final close in
`generateReport`; moreover every operation and the final close only ever
append to the closed sequences — the previous sequence is always an initial
segment of the new one, so no closed bucket is removed or reordered. -/
theorem bucket_length_invariant :
    (∀ t1 t2 : Int,
      (initData t1 t2).packetBuckets.length = (initData t1 t2).bandwidthBuckets.length) ∧
    (∀ (t1 t2 : Int) (es : List Op),
      (runOps (initData t1 t2) es).packetBuckets.length
        = (runOps (initData t1 t2) es).bandwidthBuckets.length) ∧
    (∀ (t1 t2 : Int) (es : List Op),
      (finalizeBuckets (runOps (initData t1 t2) es)).packetBuckets.length
        = (finalizeBuckets (runOps (initData t1 t2) es)).bandwidthBuckets.length) ∧
    (∀ (d : MonitoringData) (op : Op), ∃ t u,
      (applyOp d op).packetBuckets = d.packetBuckets ++ t ∧
      (applyOp d op).bandwidthBuckets = d.bandwidthBuckets ++ u) ∧
    (∀ d : MonitoringData, ∃ t u,
      (finalizeBuckets d).packetBuckets = d.packetBuckets ++ t ∧
      (finalizeBuckets d).bandwidthBuckets = d.bandwidthBuckets ++ u) := by
  refine ⟨?_, ?_, ?_, ?_, ?_⟩
  · intro t1 t2; simp [initData]
  · intro t1 t2 es
    exact runOps_length_eq es (initData t1 t2) (by simp [initData])
  · intro t1 t2 es
    have h := runOps_length_eq es (initData t1 t2) (by simp [initData])
    simp [finalizeBuckets, h]
  · intro d op
    cases op with
    | record => exact ⟨[], [], by simp [applyOp, recordPacket], by simp [applyOp, recordPacket]⟩
    | recordBW v =>
      exact ⟨[], [], by simp [applyOp, recordBandwidth], by simp [applyOp, recordBandwidth]⟩
    | rotate now =>
      by_cases h : d.nextBucketTime < now
      · exact ⟨[d.currentPackets], [d.currentBandwidth],
          by simp [applyOp, rotateTick, h], by simp [applyOp, rotateTick, h]⟩
      · exact ⟨[], [], by simp [applyOp, rotateTick, h], by simp [applyOp, rotateTick, h]⟩
  · intro d
    exact ⟨[d.currentPackets], [d.currentBandwidth], rfl, rfl⟩

/-- Per-interface statistics kept by the Linux netstat backend
(src/netstat/netstat.go lines 15-21). -/
structure InterfaceStats where
  rxBytes : Nat
  txBytes : Nat
  lastRx : Nat
  lastTx : Nat
deriving Repr, DecidableEq

/-- Which byte counter a Linux `Counter` reads: received (`rx`) or
transmitted (`tx`). -/
inductive CounterType where
  | rx : CounterType
  | tx : CounterType
deriving Repr, DecidableEq

/-- Modulus of Go's `uint64`. -/
def U64 : Nat := 2 ^ 64

/-- Go `uint64` subtraction `a - b` (wrapping), for operands below `2^64`. -/
def sub64 (a b : Nat) : Nat := (a + U64 - b) % U64

/-- The Linux `Counter.GetValue` (src/netstat/netstat.go lines 120-186) for a
given read of `/proc/net/dev`: `entry` is the parsed cumulative `(rxBytes,
txBytes)` pair for the counter's interface (`none` when the interface is
absent from the file), `st` is the stats entry stored in the counter's monitor
map from a previous call (`none` on the first call).  On the first call the
code stores a baseline with `LastRx`/`LastTx` set to the current cumulative
counters — leaving `RxBytes`/`TxBytes` zero — and returns `0` with a nil
error; on later calls it returns the wrapped `uint64` difference from the
stored baseline and advances the baseline of its own counter type. -/
def counterGetValue (ct : CounterType) (entry : Option (Nat × Nat))
    (st : Option InterfaceStats) : Except String (ℚ × InterfaceStats) :=
  match entry with
  | none => Except.error "interface not found in /proc/net/dev"
  | some (rxB, txB) =>
    match st with
    | none =>
      Except.ok (0, { rxBytes := 0, txBytes := 0, lastRx := rxB, lastTx := txB })
    | some s =>
      match ct with
      | CounterType.rx =>
        Except.ok (((sub64 rxB s.lastRx : Nat) : ℚ),
          { rxBytes := rxB, txBytes := txB, lastRx := rxB, lastTx := s.lastTx })
      | CounterType.tx =>
        Except.ok (((sub64 txB s.lastTx : Nat) : ℚ),
          { rxBytes := rxB, txBytes := txB, lastRx := s.lastRx, lastTx := txB })

/-- C10: on the Linux backend, the first `GetValue` call for an interface
present in `/proc/net/dev` returns the value `0` with a nil error, only
priming the baseline snapshot — so a caller recording it adds zero — and a
subsequent call returns the byte difference accumulated since the previous
call (stated for an `rx` counter with non-decreasing in-range counters, as
`uint64` subtraction wraps otherwise). -/
theorem counter_getValue_first_then_diff (rxB txB rx2 tx2 : Nat)
    (s : InterfaceStats) (d : MonitoringData) (ct : CounterType)
    (h1 : s.lastRx ≤ rx2) (h2 : rx2 < U64) :
    counterGetValue ct (some (rxB, txB)) none
      = Except.ok ((0 : ℚ), { rxBytes := 0, txBytes := 0, lastRx := rxB, lastTx := txB }) ∧
    counterGetValue CounterType.rx (some (rx2, tx2)) (some s)
      = Except.ok (((rx2 - s.lastRx : Nat) : ℚ),
          { rxBytes := rx2, txBytes := tx2, lastRx := rx2, lastTx := s.lastTx }) ∧
    (recordBandwidth d 0).currentBandwidth = d.currentBandwidth := by
  refine ⟨rfl, ?_, by simp [recordBandwidth]⟩
  have h2' : rx2 < 2 ^ 64 := by simpa [U64] using h2
  have hs : sub64 rx2 s.lastRx = rx2 - s.lastRx := by
    simp only [sub64, U64]
    omega
  simp [counterGetValue, hs]

theorem counter_getValue_first_then_diff_witness :
    ({ rxBytes := 0, txBytes := 0, lastRx := 100, lastTx := 40 } : InterfaceStats).lastRx
        ≤ 250 ∧ 250 < U64 ∧
      (counterGetValue CounterType.rx (some (100, 40)) none
          = Except.ok ((0 : ℚ), { rxBytes := 0, txBytes := 0, lastRx := 100, lastTx := 40 }) ∧
       counterGetValue CounterType.rx (some (250, 90))
          (some { rxBytes := 0, txBytes := 0, lastRx := 100, lastTx := 40 })
          = Except.ok (((250 - 100 : Nat) : ℚ),
              { rxBytes := 250, txBytes := 90, lastRx := 250, lastTx := 40 }) ∧
       (recordBandwidth (initData 0 0) 0).currentBandwidth
          = (initData 0 0).currentBandwidth) :=
  ⟨by norm_num, by norm_num [U64],
   counter_getValue_first_then_diff 100 40 250 90
     { rxBytes := 0, txBytes := 0, lastRx := 100, lastTx := 40 } (initData 0 0)
     CounterType.rx (by norm_num) (by norm_num [U64])⟩

end Netwatchd
